import Mathlib

/-!
Shallow embedding of the etcd-backed service-discovery adapter
(`discovery/etcd.go`).  The backing store is modelled abstractly by a
`StoreBehavior` (scripted outcomes for each store call, allowing fault
injection) together with an explicit store content list; each adapter
operation is a pure function from behavior and state to a trace of
events (lock operations, ledger mutations, store calls with their
context kind), the successor state, and the returned value.
-/

namespace Discovery

/-- Lease identifiers, opaque to the adapter; `0` is Go's zero value. -/
abbrev LeaseID := Nat

/-- `defaultGrantTimeout = 5`: the TTL passed to `Grant`. -/
def defaultGrantTimeout : Nat := 5

/-- `defaultOperationTimeout = 5 * time.Second`, in seconds. -/
def defaultOperationTimeout : Nat := 5

/-- `defaultDialTimeout = 5 * time.Second`, in seconds. -/
def defaultDialTimeout : Nat := 5

/-- One key/value record held by the store, with the lease it is tagged by. -/
structure KV where
  key : String
  value : String
  lease : LeaseID
deriving DecidableEq

/-- The context a store call is issued under: `context.TODO()`,
`context.Background()`, or `context.WithTimeout` with the given bound. -/
inductive Ctx where
  | todo
  | background
  | timeout (d : Nat)
deriving DecidableEq

/-- The store calls the adapter can issue. -/
inductive StoreCall where
  | dial
  | grant (ttl : Nat)
  | put (key value : String) (lease : LeaseID)
  | del (key : String)
  | keepAlive (lease : LeaseID)
  | watchReq (key : String) (byPfx : Bool)
  | getReq (key : String) (byPfx : Bool)
  | closeConn
deriving DecidableEq

/-- Events observable in an operation's execution: taking and releasing
`liveKeyIDLock`, mutating the `liveKeyID` ledger, and store calls. -/
inductive Event where
  | lock
  | unlock
  | ledgerPut (key : String) (lease : LeaseID)
  | ledgerDel (key : String)
  | store (ctx : Ctx) (call : StoreCall)
deriving DecidableEq

/-- Scripted outcomes of store calls, allowing fault injection:
`none` means the call succeeds, `some e` that it fails with error `e`. -/
structure StoreBehavior where
  grantErr : Option String
  grantID : LeaseID
  putErr : String → String → LeaseID → Option String
  keepAliveErr : LeaseID → Option String
  deleteErr : String → Option String
  getErr : String → Option String
  closeErr : Option String
  dialErr : Option String

/-- Adapter-visible state: the store's record list and the adapter's
`liveKeyID` ledger (a Go map, modelled as an association list). -/
structure EtcdState where
  store : List KV
  liveKeyID : List (String × LeaseID)
deriving DecidableEq

/-- Go-map insert: replace any binding of `k`, otherwise add one. -/
def mapInsert {α : Type} (l : List (String × α)) (k : String) (v : α) :
    List (String × α) :=
  l.filter (fun p => p.1 != k) ++ [(k, v)]

/-- Store-side put: replace the record at `k`. -/
def storePut (st : List KV) (k v : String) (id : LeaseID) : List KV :=
  st.filter (fun kv => kv.key != k) ++ [⟨k, v, id⟩]

/-- Result of one adapter operation: its event trace, the successor
state, and the value it returns. -/
structure OpResult (α : Type) where
  trace : List Event
  state : EtcdState
  ret : α
deriving DecidableEq

/-- `Etcd.keep` (the Registration Protocol): grant a lease, put the
key/value under it, start the keep-alive stream, and only then record
`key ↦ leaseID` in the ledger; any failure returns that error at once. -/
def keep (b : StoreBehavior) (s : EtcdState) (key value : String) :
    OpResult (Option String) :=
  match b.grantErr with
  | some e => ⟨[Event.store Ctx.todo (StoreCall.grant defaultGrantTimeout)], s, some e⟩
  | none =>
    match b.putErr key value b.grantID with
    | some e =>
        ⟨[Event.store Ctx.todo (StoreCall.grant defaultGrantTimeout),
          Event.store Ctx.todo (StoreCall.put key value b.grantID)], s, some e⟩
    | none =>
      let s1 : EtcdState := { s with store := storePut s.store key value b.grantID }
      match b.keepAliveErr b.grantID with
      | some e =>
          ⟨[Event.store Ctx.todo (StoreCall.grant defaultGrantTimeout),
            Event.store Ctx.todo (StoreCall.put key value b.grantID),
            Event.store Ctx.todo (StoreCall.keepAlive b.grantID)], s1, some e⟩
      | none =>
          ⟨[Event.store Ctx.todo (StoreCall.grant defaultGrantTimeout),
            Event.store Ctx.todo (StoreCall.put key value b.grantID),
            Event.store Ctx.todo (StoreCall.keepAlive b.grantID),
            Event.lock, Event.ledgerPut key b.grantID, Event.unlock],
           { s1 with liveKeyID := mapInsert s1.liveKeyID key b.grantID }, none⟩

/-- `Etcd.del`: remove the key from the ledger under the lock, then
issue the store delete and return its error. -/
def del (b : StoreBehavior) (s : EtcdState) (key : String) :
    OpResult (Option String) :=
  let s1 : EtcdState := { s with liveKeyID := s.liveKeyID.filter (fun p => p.1 != key) }
  let tr := [Event.lock, Event.ledgerDel key, Event.unlock,
             Event.store Ctx.todo (StoreCall.del key)]
  match b.deleteErr key with
  | some e => ⟨tr, s1, some e⟩
  | none => ⟨tr, { s1 with store := s1.store.filter (fun kv => kv.key != key) }, none⟩

/-- `Etcd.watch`: reject a nil callback before any store call; otherwise
open the watch (exact key or prefix) and hand the channel to the callback. -/
def watch (_b : StoreBehavior) (s : EtcdState) (key : String)
    (watchFunc : Option Unit) (byPfx : Bool) : OpResult (Option String) :=
  match watchFunc with
  | none => ⟨[], s, some "watchFunc is nil"⟩
  | some _ => ⟨[Event.store Ctx.background (StoreCall.watchReq key byPfx)], s, none⟩

/-- The effect of `close`'s delete loop on the store: each ledger key is
deleted in turn, a failed delete leaving the store unchanged. -/
def sweep (b : StoreBehavior) (keys : List (String × LeaseID)) (st : List KV) :
    List KV :=
  keys.foldl
    (fun acc p =>
      match b.deleteErr p.1 with
      | none => acc.filter (fun kv => kv.key != p.1)
      | some _ => acc) st

/-- `Etcd.close`: under the ledger lock, issue a store delete for every
ledgered key (errors ignored), then release the lock and close the
client connection, returning the connection close's error. -/
def close (b : StoreBehavior) (s : EtcdState) : OpResult (Option String) :=
  ⟨Event.lock ::
     (s.liveKeyID.map (fun p => Event.store Ctx.todo (StoreCall.del p.1))
       ++ [Event.unlock, Event.store Ctx.todo StoreCall.closeConn]),
   { s with store := sweep b s.liveKeyID s.store }, b.closeErr⟩

/-- `Etcd.get`: bounded-time point read; on success fold over the
response records, keeping the last value seen (empty string if none). -/
def get (b : StoreBehavior) (s : EtcdState) (key : String) :
    OpResult (String × Option String) :=
  let tr := [Event.store (Ctx.timeout defaultOperationTimeout) (StoreCall.getReq key false)]
  match b.getErr key with
  | some e => ⟨tr, s, ("", some e)⟩
  | none =>
      let kvs := s.store.filter (fun kv => kv.key == key)
      ⟨tr, s, (kvs.foldl (fun _ kv => kv.value) "", none)⟩

/-- `Etcd.getByPrefix`: bounded-time prefix read; on success build a map
from every response record (later records overwrite earlier ones);
a transport error returns a nil map with the error. -/
def getByPrefix (b : StoreBehavior) (s : EtcdState) (keyPfx : String) :
    OpResult (Option (List (String × String)) × Option String) :=
  let tr := [Event.store (Ctx.timeout defaultOperationTimeout) (StoreCall.getReq keyPfx true)]
  match b.getErr keyPfx with
  | some e => ⟨tr, s, (none, some e)⟩
  | none =>
      let kvs := s.store.filter (fun kv => keyPfx.isPrefixOf kv.key)
      ⟨tr, s, (some (kvs.foldl (fun acc kv => mapInsert acc kv.key kv.value) []), none)⟩

/-- `Etcd.update` (the Update/Heal Protocol): look up the key's lease
under the lock (Go-map zero value `0` if absent), publish under it; on
publish failure fall back to the full Registration Protocol `keep` and
return its outcome. -/
def update (b : StoreBehavior) (s : EtcdState) (key value : String) :
    OpResult (Option String) :=
  let id := (s.liveKeyID.lookup key).getD 0
  let tr := [Event.lock, Event.unlock, Event.store Ctx.todo (StoreCall.put key value id)]
  match b.putErr key value id with
  | none => ⟨tr, { s with store := storePut s.store key value id }, none⟩
  | some _ =>
      let r := keep b s key value
      ⟨tr ++ r.trace, r.state, r.ret⟩

/-- `newEtcd`: dial the endpoints under `defaultDialTimeout`; on success
the client starts with an empty ledger over the existing server store. -/
def newEtcd (b : StoreBehavior) (serverStore : List KV) :
    List Event × Option EtcdState × Option String :=
  match b.dialErr with
  | some e => ([Event.store (Ctx.timeout defaultDialTimeout) StoreCall.dial], none, some e)
  | none =>
      ([Event.store (Ctx.timeout defaultDialTimeout) StoreCall.dial],
       some ⟨serverStore, []⟩, none)

/-- `true` iff some store call in the trace is issued while the ledger
lock is held (`d` counts currently-held acquisitions). -/
def storeUnderLock : List Event → Nat → Bool
  | [], _ => false
  | Event.lock :: rest, d => storeUnderLock rest (d + 1)
  | Event.unlock :: rest, d => storeUnderLock rest (d - 1)
  | Event.store _ _ :: rest, d => (d != 0) || storeUnderLock rest d
  | _ :: rest, d => storeUnderLock rest d

/-- The store calls of the trace issued while the ledger lock is held. -/
def storeEventsUnderLock : List Event → Nat → List Event
  | [], _ => []
  | Event.lock :: rest, d => storeEventsUnderLock rest (d + 1)
  | Event.unlock :: rest, d => storeEventsUnderLock rest (d - 1)
  | Event.store c sc :: rest, d =>
      if d != 0 then Event.store c sc :: storeEventsUnderLock rest d
      else storeEventsUnderLock rest d
  | _ :: rest, d => storeEventsUnderLock rest d

/-- A context bounded by an explicit timeout. -/
def Ctx.isBounded : Ctx → Bool
  | Ctx.timeout _ => true
  | _ => false

/-- Renewal-stream calls (the keep-alive) are exempt from the spec's
timeout discipline. -/
def isRenewal : StoreCall → Bool
  | StoreCall.keepAlive _ => true
  | _ => false

/-- `true` iff every non-renewal store call in the trace is bounded. -/
def allNonRenewalBounded (tr : List Event) : Bool :=
  tr.all fun e =>
    match e with
    | Event.store c sc => isRenewal sc || Ctx.isBounded c
    | _ => true

/-- `true` iff no store call in the trace is bounded by a timeout. -/
def noneBounded (tr : List Event) : Bool :=
  tr.all fun e =>
    match e with
    | Event.store c _ => !(Ctx.isBounded c)
    | _ => true

/-- An all-success behavior: every store call succeeds, leases come out
as `1`. Used for concrete counterexamples. -/
def behaviorOk : StoreBehavior :=
  ⟨none, 1, fun _ _ _ => none, fun _ => none, fun _ => none,
   fun _ => none, none, none⟩

/-- A behavior whose put fails under lease `0` (a dead or unknown lease)
but succeeds under the freshly granted lease `7`. -/
def behaviorC2 : StoreBehavior :=
  ⟨none, 7, fun _ _ id => if id == 0 then some "lease expired" else none,
   fun _ => none, fun _ => none, fun _ => none, none, none⟩

/-- A registry holding one key, with its record live in the store. -/
def stateC3 : EtcdState := ⟨[⟨"k", "v", 1⟩], [("k", 1)]⟩

/-- An all-success behavior for the close-sweep witness. -/
def behaviorC6 : StoreBehavior :=
  ⟨none, 1, fun _ _ _ => none, fun _ => none, fun _ => none,
   fun _ => none, none, none⟩

/-- A registry holding three keys, each with a live store record. -/
def stateC6 : EtcdState :=
  ⟨[⟨"a", "1", 1⟩, ⟨"b", "2", 2⟩, ⟨"c", "3", 3⟩],
   [("a", 1), ("b", 2), ("c", 3)]⟩

/-- An all-success behavior for the absent-key update witness. -/
def behaviorC7 : StoreBehavior :=
  ⟨none, 1, fun _ _ _ => none, fun _ => none, fun _ => none,
   fun _ => none, none, none⟩

/-- An all-success behavior for the empty-prefix-read witness. -/
def behaviorC9 : StoreBehavior :=
  ⟨none, 1, fun _ _ _ => none, fun _ => none, fun _ => none,
   fun _ => none, none, none⟩

/-- An all-success behavior for the point-read witness. -/
def behaviorC10 : StoreBehavior :=
  ⟨none, 1, fun _ _ _ => none, fun _ => none, fun _ => none,
   fun _ => none, none, none⟩

/-- A store holding two records for the same key `"k"`. -/
def stateC10 : EtcdState :=
  ⟨[⟨"k", "first", 1⟩, ⟨"k", "second", 2⟩], []⟩

/-- C1: `register(key, value)` (the code's `keep`) mutates the Lease Ledger
only after the lease grant, the publish, and the keep-alive all succeed: the
returned error is exactly the first failing store call's error, and the
ledger is updated (with `key ↦ leaseID`) exactly when no call failed —
on every failure path the ledger is unchanged. -/
theorem keep_atomic (b : StoreBehavior) (s : EtcdState) (key value : String) :
    (keep b s key value).ret
      = ((b.grantErr).orElse fun _ =>
          ((b.putErr key value b.grantID).orElse fun _ =>
            b.keepAliveErr b.grantID))
    ∧ (keep b s key value).state.liveKeyID
      = (if (keep b s key value).ret = none
         then mapInsert s.liveKeyID key b.grantID
         else s.liveKeyID) := by
  cases hg : b.grantErr <;>
    cases hp : b.putErr key value b.grantID <;>
      cases hk : b.keepAliveErr b.grantID <;>
        simp [keep, hg, hp, hk, Option.orElse]

/-- C2: when `update`'s publish under the looked-up lease fails, `update`
does not return that publish error; it runs the full Registration Protocol
(`keep`) for the same key and value, returning exactly the fallback's
outcome (so an error only if the fallback itself fails), its event trace
continuing with the full `keep` trace. -/
theorem update_heals_on_publish_failure (b : StoreBehavior) (s : EtcdState)
    (key value : String)
    (h : b.putErr key value ((s.liveKeyID.lookup key).getD 0) ≠ none) :
    (update b s key value).ret = (keep b s key value).ret
    ∧ (update b s key value).state = (keep b s key value).state
    ∧ (update b s key value).trace
      = [Event.lock, Event.unlock,
         Event.store Ctx.todo
           (StoreCall.put key value ((s.liveKeyID.lookup key).getD 0))]
        ++ (keep b s key value).trace := by
  cases hp : b.putErr key value ((s.liveKeyID.lookup key).getD 0) with
  | none => exact absurd hp h
  | some e => simp [update, hp]

/-- Concrete witness for C2: with an empty ledger and a store whose put
fails under lease `0` but succeeds under the fresh lease `7`, `update`
returns the fallback registration's outcome. -/
theorem update_heals_witness :
    (update behaviorC2 ⟨[], []⟩ "k" "v").ret
      = (keep behaviorC2 ⟨[], []⟩ "k" "v").ret
    ∧ (update behaviorC2 ⟨[], []⟩ "k" "v").state
      = (keep behaviorC2 ⟨[], []⟩ "k" "v").state :=
  ⟨(update_heals_on_publish_failure behaviorC2 ⟨[], []⟩ "k" "v" (by decide)).1,
   (update_heals_on_publish_failure behaviorC2 ⟨[], []⟩ "k" "v" (by decide)).2.1⟩

/-- C5: `deregister(key)` (the code's `del`) removes the key from the
ledger before issuing the store delete (visible in the trace order), the
removal stands whether or not the store delete fails, and the store
delete's error is returned verbatim. -/
theorem del_removes_ledger_first (b : StoreBehavior) (s : EtcdState)
    (key : String) :
    (del b s key).trace
      = [Event.lock, Event.ledgerDel key, Event.unlock,
         Event.store Ctx.todo (StoreCall.del key)]
    ∧ (del b s key).state.liveKeyID = s.liveKeyID.filter (fun p => p.1 != key)
    ∧ (del b s key).ret = b.deleteErr key := by
  cases hd : b.deleteErr key <;> simp [del, hd]

/-- C8: `watch` with a nil callback returns the invalid-argument error
before any store call (empty trace, state untouched), while with a
non-nil callback it opens the watch and returns no error. -/
theorem watch_nil_callback (b : StoreBehavior) (s : EtcdState) (key : String)
    (byPfx : Bool) :
    ((watch b s key none byPfx).ret = some "watchFunc is nil"
      ∧ (watch b s key none byPfx).trace = []
      ∧ (watch b s key none byPfx).state = s)
    ∧ ((watch b s key (some ()) byPfx).ret = none
      ∧ (watch b s key (some ()) byPfx).trace
        = [Event.store Ctx.background (StoreCall.watchReq key byPfx)]) := by
  simp [watch]

/-- Whatever survives the delete sweep was already in the store. -/
lemma sweep_subset (b : StoreBehavior) (keys : List (String × LeaseID)) :
    ∀ st : List KV, ∀ kv ∈ sweep b keys st, kv ∈ st := by
  induction keys with
  | nil => intro st kv h; simpa [sweep] using h
  | cons p rest ih =>
      intro st kv h
      cases hd : b.deleteErr p.1 with
      | none =>
          have h2 : kv ∈ st.filter (fun x => x.key != p.1) := by
            have := ih (st.filter (fun x => x.key != p.1)) kv
            apply this
            simpa [sweep, hd] using h
          exact List.mem_of_mem_filter h2
      | some e =>
          apply ih st kv
          simpa [sweep, hd] using h

/-- When every ledgered key's store delete succeeds, no record for a
ledgered key survives the sweep. -/
lemma sweep_removes (b : StoreBehavior) (keys : List (String × LeaseID)) :
    ∀ st : List KV, (∀ p ∈ keys, b.deleteErr p.1 = none) →
      ∀ kv ∈ sweep b keys st, ∀ p ∈ keys, kv.key ≠ p.1 := by
  induction keys with
  | nil => intro st _ kv _ p hp; cases hp
  | cons q rest ih =>
      intro st hok kv hkv p hp
      have hq : b.deleteErr q.1 = none := hok q (List.mem_cons_self q rest)
      have hkv2 : kv ∈ sweep b rest (st.filter (fun x => x.key != q.1)) := by
        simpa [sweep, hq] using hkv
      rcases List.mem_cons.mp hp with hpq | hpr
      · have hmem : kv ∈ st.filter (fun x => x.key != q.1) :=
          sweep_subset b rest _ kv hkv2
        have hne := List.of_mem_filter hmem
        rw [hpq]
        simpa using hne
      · exact ih (st.filter (fun x => x.key != q.1))
          (fun r hr => hok r (List.mem_cons_of_mem q hr)) kv hkv2 p hpr

/-- C6: `close` issues a store delete for every key currently in the
ledger — unconditionally, so it continues past individual delete
failures — and only after that sweep closes the client connection
(the trace's final event), returning the connection close's error; and
when every ledgered key's delete succeeds at the store, no ledgered key
remains in the store afterwards. -/
theorem close_sweeps_then_closes (b : StoreBehavior) (s : EtcdState) :
    (close b s).trace
      = Event.lock ::
          (s.liveKeyID.map (fun p => Event.store Ctx.todo (StoreCall.del p.1))
            ++ [Event.unlock, Event.store Ctx.todo StoreCall.closeConn])
    ∧ (close b s).ret = b.closeErr
    ∧ ((∀ p ∈ s.liveKeyID, b.deleteErr p.1 = none) →
        ∀ kv ∈ (close b s).state.store, ∀ p ∈ s.liveKeyID, kv.key ≠ p.1) := by
  refine ⟨rfl, rfl, fun hok kv hkv p hp => ?_⟩
  exact sweep_removes b s.liveKeyID s.store hok kv hkv p hp

/-- Concrete witness for C6: a registry holding three keys, a store with
records for them, and a store whose deletes succeed; after `close`, none
of the three keys remain in the store. -/
theorem close_sweeps_witness :
    (∀ p ∈ stateC6.liveKeyID, behaviorC6.deleteErr p.1 = none)
    ∧ (∀ kv ∈ (close behaviorC6 stateC6).state.store,
        ∀ p ∈ stateC6.liveKeyID, kv.key ≠ p.1) :=
  ⟨by decide,
   (close_sweeps_then_closes behaviorC6 stateC6).2.2 (by decide)⟩

/-- C7: for a key absent from the ledger, `update` still attempts the
store publish, tagging it with the zero lease identifier; absence is not
an error — when that publish succeeds, `update` returns no error. -/
theorem update_absent_key_zero_lease (b : StoreBehavior) (s : EtcdState)
    (key value : String) (h : s.liveKeyID.lookup key = none) :
    (update b s key value).trace.take 3
      = [Event.lock, Event.unlock,
         Event.store Ctx.todo (StoreCall.put key value 0)]
    ∧ (b.putErr key value 0 = none → (update b s key value).ret = none) := by
  constructor
  · cases hp : b.putErr key value 0 <;> simp [update, h, hp]
  · intro hp; simp [update, h, hp]

/-- Concrete witness for C7: the empty ledger and an always-succeeding
put; `update` publishes under lease `0` and returns no error. -/
theorem update_absent_key_witness :
    (update behaviorC7 ⟨[], []⟩ "k" "v").trace.take 3
      = [Event.lock, Event.unlock,
         Event.store Ctx.todo (StoreCall.put "k" "v" 0)]
    ∧ (update behaviorC7 ⟨[], []⟩ "k" "v").ret = none :=
  ⟨(update_absent_key_zero_lease behaviorC7 ⟨[], []⟩ "k" "v" (by decide)).1,
   (update_absent_key_zero_lease behaviorC7 ⟨[], []⟩ "k" "v" (by decide)).2
     (by decide)⟩

/-- C9: when the store is reachable and no stored key has the given
prefix, `getByPrefix` returns the empty mapping together with no error —
an empty result set is never reported as an error. -/
theorem getByPrefix_empty_not_error (b : StoreBehavior) (s : EtcdState)
    (keyPfx : String) (hg : b.getErr keyPfx = none)
    (hs : ∀ kv ∈ s.store, keyPfx.isPrefixOf kv.key = false) :
    ( getByPrefix b s keyPfx).ret = (some [], none) := by
  have hfil : s.store.filter (fun kv => keyPfx.isPrefixOf kv.key) = [] := by
    apply List.filter_eq_nil_iff.mpr
    intro kv hkv
    simp [hs kv hkv]
  simp [getByPrefix, hg, hfil]

/-- Concrete witness for C9: an empty store and a reachable store
connection; `getByPrefix` returns the empty mapping and no error. -/
theorem getByPrefix_empty_witness :
    ( getByPrefix behaviorC9 ⟨[], []⟩ "svc/").ret = (some [], none) :=
  getByPrefix_empty_not_error behaviorC9 ⟨[], []⟩ "svc/" (by decide)
    (by intro kv hkv; cases hkv)

/-- C10: when the store is reachable, `get` on a key with no matching
record returns the empty string and no error (indistinguishable from a
stored empty value), and when the response carries several records it
returns the last record's value in iteration order, again with no error. -/
theorem get_absent_empty_and_last (b : StoreBehavior) (s : EtcdState)
    (key : String) (hg : b.getErr key = none) :
    (s.store.filter (fun kv => kv.key == key) = [] →
      (get b s key).ret = ("", none))
    ∧ (∀ (l : List KV) (last : KV),
        s.store.filter (fun kv => kv.key == key) = l ++ [last] →
        (get b s key).ret = (last.value, none)) := by
  constructor
  · intro hfil; simp [get, hg, hfil]
  · intro l last hfil
    simp [get, hg, hfil, List.foldl_append]

/-- Concrete witness for C10: a store whose response for `"k"` carries
two records; `get` returns the second record's value with no error (and
on the empty store it returns the empty string with no error). -/
theorem get_last_record_witness :
    (get behaviorC10 stateC10 "k").ret = ("second", none)
    ∧ (get behaviorC10 ⟨[], []⟩ "k").ret = ("", none) :=
  ⟨(get_absent_empty_and_last behaviorC10 stateC10 "k" (by decide)).2
      [⟨"k", "first", 1⟩] ⟨"k", "second", 2⟩ (by decide),
   (get_absent_empty_and_last behaviorC10 ⟨[], []⟩ "k" (by decide)).1
      (by decide)⟩

/-- C3 counterexample: it is not true that every operation releases the
ledger lock before any store call — `close` on a registry holding one
key issues its store delete while the lock is held. -/
theorem close_holds_lock_counterexample :
    ¬ (∀ (b : StoreBehavior) (s : EtcdState),
        storeUnderLock ((close b s).trace) 0 = false) := by
  intro h
  exact absurd (h behaviorOk stateC3) (by decide)

/-- Pushing `storeEventsUnderLock` at depth 1 through the sweep's
delete events collects them all. -/
lemma storeEventsUnderLock_sweep (l : List (String × LeaseID))
    (rest : List Event) :
    storeEventsUnderLock
        (l.map (fun p => Event.store Ctx.todo (StoreCall.del p.1)) ++ rest) 1
      = l.map (fun p => Event.store Ctx.todo (StoreCall.del p.1))
        ++ storeEventsUnderLock rest 1 := by
  induction l with
  | nil => simp
  | cons q rest2 ih => simp [storeEventsUnderLock, ih]

/-- C3 amended: every operation except `close` releases the ledger lock
before any store call; `close` holds the lock across its delete sweep —
the store calls it issues under the lock are exactly the sweep's deletes
— but releases it before closing the connection. -/
theorem lock_scope (b : StoreBehavior) (s : EtcdState) (key value : String)
    (byPfx : Bool) (wf : Option Unit) :
    storeUnderLock ((keep b s key value).trace) 0 = false
    ∧ storeUnderLock ((update b s key value).trace) 0 = false
    ∧ storeUnderLock ((del b s key).trace) 0 = false
    ∧ storeUnderLock ((watch b s key wf byPfx).trace) 0 = false
    ∧ storeUnderLock ((get b s key).trace) 0 = false
    ∧ storeUnderLock (( getByPrefix b s key).trace) 0 = false
    ∧ storeEventsUnderLock ((close b s).trace) 0
      = s.liveKeyID.map (fun p => Event.store Ctx.todo (StoreCall.del p.1)) := by
  refine ⟨?_, ?_, ?_, ?_, ?_, ?_, ?_⟩
  · cases hg : b.grantErr <;>
      cases hp : b.putErr key value b.grantID <;>
        cases hk : b.keepAliveErr b.grantID <;>
          simp [keep, hg, hp, hk, storeUnderLock]
  · cases hp : b.putErr key value ((s.liveKeyID.lookup key).getD 0) <;>
      cases hg : b.grantErr <;>
        cases hp2 : b.putErr key value b.grantID <;>
          cases hk : b.keepAliveErr b.grantID <;>
            simp [update, keep, hg, hp, hp2, hk, storeUnderLock]
  · cases hd : b.deleteErr key <;> simp [del, hd, storeUnderLock]
  · cases wf <;> simp [watch, storeUnderLock]
  · cases hg : b.getErr key <;> simp [get, hg, storeUnderLock]
  · cases hg : b.getErr key <;> simp [getByPrefix, hg, storeUnderLock]
  · simp [close, storeEventsUnderLock, storeEventsUnderLock_sweep]

/-- C4 counterexample: it is not true that every non-renewal store call
is bounded by a timeout — the Registration Protocol's lease grant is
issued under `context.TODO()`, with no timeout. -/
theorem keep_unbounded_counterexample :
    ¬ (∀ (b : StoreBehavior) (s : EtcdState) (key value : String),
        allNonRenewalBounded ((keep b s key value).trace) = true) := by
  intro h
  exact absurd (h behaviorOk ⟨[], []⟩ "k" "v") (by decide)

/-- C4 amended: only the dial and the point reads are bounded — `get`
and `getByPrefix` carry the default 5-unit operation timeout and the
dial the default 5-unit dial timeout — while every store call issued by
`keep`, `update`, `del`, `close`, and `watch` (grant, put, delete,
keep-alive, the sweep's deletes, the connection close, the watch
request) is issued with no timeout at all. -/
theorem timeout_discipline (b : StoreBehavior) (s : EtcdState)
    (key value : String) (byPfx : Bool) (wf : Option Unit) :
    (get b s key).trace
      = [Event.store (Ctx.timeout defaultOperationTimeout)
          (StoreCall.getReq key false)]
    ∧ ( getByPrefix b s key).trace
      = [Event.store (Ctx.timeout defaultOperationTimeout)
          (StoreCall.getReq key true)]
    ∧ (newEtcd b s.store).1
      = [Event.store (Ctx.timeout defaultDialTimeout) StoreCall.dial]
    ∧ noneBounded ((keep b s key value).trace) = true
    ∧ noneBounded ((update b s key value).trace) = true
    ∧ noneBounded ((del b s key).trace) = true
    ∧ noneBounded ((close b s).trace) = true
    ∧ noneBounded ((watch b s key wf byPfx).trace) = true := by
  refine ⟨?_, ?_, ?_, ?_, ?_, ?_, ?_, ?_⟩
  · cases hg : b.getErr key <;> simp [get, hg]
  · cases hg : b.getErr key <;> simp [getByPrefix, hg]
  · cases hd : b.dialErr <;> simp [newEtcd, hd]
  · cases hg : b.grantErr <;>
      cases hp : b.putErr key value b.grantID <;>
        cases hk : b.keepAliveErr b.grantID <;>
          simp [keep, hg, hp, hk, noneBounded, Ctx.isBounded]
  · cases hp : b.putErr key value ((s.liveKeyID.lookup key).getD 0) <;>
      cases hg : b.grantErr <;>
        cases hp2 : b.putErr key value b.grantID <;>
          cases hk : b.keepAliveErr b.grantID <;>
            simp [update, keep, hg, hp, hp2, hk, noneBounded, Ctx.isBounded]
  · cases hd : b.deleteErr key <;> simp [del, hd, noneBounded, Ctx.isBounded]
  · simp [close, noneBounded, Ctx.isBounded, List.all_map, Function.comp]
    intro e k id _ he
    subst he
    rfl
  · cases wf <;> simp [watch, noneBounded, Ctx.isBounded]

end Discovery
